import Mathlib

/-!
Shallow embedding of the email generation-and-validation engine of
`job_apply_agent` (`app/email/generator.py`), together with theorems that
settle the spec claims about it.

Modelling conventions:
* Python `str` is modelled as Lean `String`; character-level work is done on
  `String.data : List Char`.
* Case folding (`str.lower`, `re.IGNORECASE`) is modelled with `Char.toLower`,
  i.e. ASCII case folding, which agrees with Python on the ASCII texts the
  program manipulates.
* Python regex character class `\s` is modelled by `isPySpace`
  (space, tab, newline, carriage return, vertical tab, form feed).
* `re.sub(re.escape(phrase), "", text, flags=IGNORECASE)` performs literal,
  leftmost, non-overlapping, global removal; `removeAllCI` mirrors that scan.
  Recursions that skip a matched block are written with an explicit fuel
  argument (`fuel ≥ length of the list` makes the fuel branch unreachable) so
  that every definition is structurally recursive and kernel-reducible.
* Python `set` literals (banned phrases, vocabularies) are modelled as `List
  String` in source order; the program only tests membership, and the theorems
  below do not depend on iteration order.
-/

namespace JobApplyAgent

/-- Python `\s` class: the whitespace characters recognized by `re`. -/
def isPySpace (c : Char) : Bool :=
  c = ' ' || c = '\t' || c = '\n' || c = '\r' || c = '\x0b' || c = '\x0c'

/-- ASCII case folding of one character (model of Python `str.lower`). -/
def lowerChar (c : Char) : Char := c.toLower

/-- Lowercase a character list. -/
def toLowerL (l : List Char) : List Char := l.map lowerChar

/-- Model of Python `str.lower()`. -/
def toLowerS (s : String) : String := ⟨toLowerL s.data⟩

/-- Model of Python `str.strip()` on character lists: drop whitespace from
both ends. -/
def pyStripL (l : List Char) : List Char :=
  ((l.dropWhile isPySpace).reverse.dropWhile isPySpace).reverse

/-- Model of Python `str.strip()`. -/
def pyStripS (s : String) : String := ⟨pyStripL s.data⟩

/-- Case-insensitive literal match of `p` against a prefix of `l`
(model of a regex-escaped pattern match with `IGNORECASE`). -/
def isPrefixCI : List Char → List Char → Bool
  | [], _ => true
  | _ :: _, [] => false
  | a :: as, b :: bs => (lowerChar a == lowerChar b) && isPrefixCI as bs

/-- Plain (case-sensitive) substring test on character lists
(model of Python `needle in haystack`). -/
def containsSub (needle : List Char) : List Char → Bool
  | [] => needle.isEmpty
  | c :: rest => needle.isPrefixOf (c :: rest) || containsSub needle rest

/-- `needle in haystack` on strings. -/
def containsSubS (needle hay : String) : Bool := containsSub needle.data hay.data

/-- One global, leftmost, non-overlapping, case-insensitive removal pass of the
literal `p` from `l`: model of `re.sub(re.escape(p), "", l, flags=IGNORECASE)`.
`fuel` only serves structural recursion; with `fuel ≥ l.length` it never
runs out (every step consumes at least one character). -/
def removeGo (p : List Char) : Nat → List Char → List Char
  | 0, l => l
  | _ + 1, [] => []
  | fuel + 1, c :: rest =>
      if p ≠ [] && isPrefixCI p (c :: rest) then
        removeGo p fuel (List.drop p.length (c :: rest))
      else
        c :: removeGo p fuel rest

/-- Remove every case-insensitive occurrence of the literal phrase `p`. -/
def removeAllCI (p : List Char) (l : List Char) : List Char :=
  removeGo p l.length l

/-- Collapse every whitespace run into a single space: model of
`re.sub(r"\s+", " ", text)`.  The `prevWs` flag records whether the previous
input character belonged to a whitespace run whose single space was already
emitted. -/
def collapseGo (prevWs : Bool) : List Char → List Char
  | [] => []
  | c :: rest =>
      if isPySpace c then
        if prevWs then collapseGo true rest
        else ' ' :: collapseGo true rest
      else c :: collapseGo false rest

/-- `re.sub(r"\s+", " ", text)` on character lists. -/
def collapseWS (l : List Char) : List Char := collapseGo false l

/-- The fixed banned-phrase set (`BANNED_PHRASES`), in source order. -/
def BANNED_PHRASES : List String :=
  [ "solid background"
  , "hands-on experience"
  , "extensive experience"
  , "proven track record"
  , "passionate about"
  , "dynamic environment"
  , "full software lifecycle"
  , "aligns well"
  , "enhancing user experience"
  , "saas environment"
  , "i am excited"
  , "thrilled"
  , "dear hiring manager"
  , "to whom it may concern"
  ]

/-- `_sanitize_banned`: remove every banned phrase (case-insensitively,
literally), then collapse whitespace runs to single spaces and trim ends. -/
def sanitizeBanned (text : String) : String :=
  let cleaned := BANNED_PHRASES.foldl (fun acc p => removeAllCI p.data acc) text.data
  ⟨pyStripL (collapseWS cleaned)⟩

/-- Python `sep.join(parts)`. -/
def pyJoin (sep : String) : List String → String
  | [] => ""
  | [x] => x
  | x :: y :: rest => x ++ sep ++ pyJoin sep (y :: rest)

/-- `re.split(r"\s+", text)`: split at whitespace runs, keeping the (possibly
empty) pieces between runs, exactly as Python does (a leading or trailing run
produces an empty piece).  `prevWs` records that the current whitespace run
already ended a piece. -/
def splitWSGo (prevWs : Bool) (cur : List Char) : List Char → List String
  | [] => [⟨cur.reverse⟩]
  | c :: rest =>
      if isPySpace c then
        if prevWs then splitWSGo true cur rest
        else ⟨cur.reverse⟩ :: splitWSGo true [] rest
      else splitWSGo false (c :: cur) rest

/-- `re.split(r"\s+", s)`. -/
def pySplitWS (s : String) : List String := splitWSGo false [] s.data

/-- Maximal runs of characters satisfying `pred`, in order: model of
`re.findall` for a character-class-plus pattern (only non-empty matches). -/
def tokensGo (pred : Char → Bool) (cur : List Char) : List Char → List String
  | [] => if cur.isEmpty then [] else [⟨cur.reverse⟩]
  | c :: rest =>
      if pred c then tokensGo pred (c :: cur) rest
      else if cur.isEmpty then tokensGo pred [] rest
      else ⟨cur.reverse⟩ :: tokensGo pred [] rest

/-- `re.findall` of a character class `pred` repeated one or more times. -/
def findRuns (pred : Char → Bool) (s : String) : List String :=
  tokensGo pred [] s.data

def isAsciiAlpha (c : Char) : Bool :=
  ('a' ≤ c && c ≤ 'z') || ('A' ≤ c && c ≤ 'Z')

/-- `re.findall(r"[a-zA-Z']+", s)`. -/
def findWordTokens (s : String) : List String :=
  findRuns (fun c => isAsciiAlpha c || c = '\'') s

/-- `re.findall(r"[a-zA-Z]{4,}", s)`: alphabetic runs of length at least 4
(a maximal run shorter than 4 yields no match). -/
def findLongWords (s : String) : List String :=
  (findRuns isAsciiAlpha s).filter (fun w => w.length ≥ 4)

def isSentencePunct (c : Char) : Bool := c = '.' || c = '!' || c = '?'

/-- `re.split(r"[.!?]+\s*", s)`: a separator is a run of sentence punctuation
followed by optional whitespace.  State `0` = inside a piece, `1` = inside the
punctuation part of a separator, `2` = inside its trailing whitespace. -/
def sentGo (st : Nat) (cur : List Char) : List Char → List String
  | [] => [⟨cur.reverse⟩]
  | c :: rest =>
      if st = 0 then
        if isSentencePunct c then ⟨cur.reverse⟩ :: sentGo 1 [] rest
        else sentGo 0 (c :: cur) rest
      else if st = 1 then
        if isSentencePunct c then sentGo 1 [] rest
        else if isPySpace c then sentGo 2 [] rest
        else sentGo 0 [c] rest
      else
        if isPySpace c then sentGo 2 [] rest
        else if isSentencePunct c then ⟨[]⟩ :: sentGo 1 [] rest
        else sentGo 0 [c] rest

/-- `re.split(r"[.!?]+\s*", s)`. -/
def splitSentences (s : String) : List String := sentGo 0 [] s.data

/-- Split a character list at every newline (always at least one piece). -/
def splitOnNl : List Char → List (List Char)
  | [] => [[]]
  | c :: rest =>
      match splitOnNl rest with
      | [] => [[]]
      | h :: t => if c = '\n' then [] :: h :: t else (c :: h) :: t

/-- Model of Python `str.splitlines()` (newline-only: the generator never
produces bare carriage returns): `""` has no lines, and a trailing newline
does not open an empty final line. -/
def pySplitLines (s : String) : List String :=
  match s.data with
  | [] => []
  | l =>
      let parts := splitOnNl l
      if parts.getLast? = some [] then (parts.dropLast).map String.mk
      else parts.map String.mk

/-- Specification predicate (not from the source): no two adjacent whitespace
characters anywhere in the list. -/
def noDoubleWS : List Char → Bool
  | a :: b :: rest => !(isPySpace a && isPySpace b) && noDoubleWS (b :: rest)
  | _ => true

/-- `str.split()` with no argument: whitespace-separated words, no empties. -/
def pySplitNoArg (s : String) : List String :=
  findRuns (fun c => !isPySpace c) s

/-- The characters stripped from tokens in `_adjective_heavy`:
`".,!?:;()[]{}\"'\n\r"`. -/
def punctStripSet : List Char :=
  ['.', ',', '!', '?', ':', ';', '(', ')', '[', ']', '{', '}', '"', '\'', '\n', '\r']

/-- `w.strip(".,!?:;()[]{}\"'\n\r")`. -/
def stripPunct (s : String) : String :=
  ⟨((s.data.dropWhile (punctStripSet.contains ·)).reverse.dropWhile
      (punctStripSet.contains ·)).reverse⟩

/-- `GENERIC_TEMPLATES`, in source order. -/
def GENERIC_TEMPLATES : List String :=
  [ "i am writing to apply"
  , "i'm writing to apply"
  , "please find my resume attached"
  , "my resume is attached for your review"
  , "thank you for your time and consideration"
  , "i believe i am a great fit"
  , "with x years of experience"
  ]

/-- `ADJECTIVES`, in source order. -/
def ADJECTIVES : List String :=
  [ "innovative", "dynamic", "motivated", "driven", "dedicated", "hardworking"
  , "detail-oriented", "collaborative", "strategic", "proactive", "fast-paced" ]

/-- `VERBS`, in source order. -/
def VERBS : List String :=
  [ "built", "shipped", "designed", "implemented", "led", "owned", "delivered"
  , "debugged", "refactored", "scaled", "optimized", "deployed", "maintained"
  , "improved", "integrated", "tested", "reviewed", "applied", "integrating"
  , "experimented" ]

/-- `RESUME_SUMMARY_MARKERS`, in source order. -/
def RESUME_SUMMARY_MARKERS : List String :=
  [ "professional summary", "summary", "experience includes"
  , "years of experience", "proven track record" ]

/-- Model of Python `str.endswith` (character-list based, kernel-reducible). -/
def pyEndsWith (s tail : String) : Bool := tail.data.isSuffixOf s.data

/-- `_word_count`: words of the stripped text separated by whitespace runs. -/
def wordCount (text : String) : Nat :=
  ((pySplitWS (pyStripS text)).filter (fun w => w ≠ "")).length

/-- `_adjective_heavy`. -/
def adjectiveHeavy (text : String) : Bool :=
  let words := ((pySplitWS text).filter (fun w => w ≠ "")).map
    (fun w => toLowerS (stripPunct w))
  let adj := (words.filter (fun w => ADJECTIVES.contains w || pyEndsWith w "ive")).length
  let verbs := (words.filter (fun w => VERBS.contains w)).length
  adj > max verbs 1 + 2

/-- `_contains_banned_phrase`. -/
def containsBannedPhrase (text : String) : Bool × String :=
  let lower := toLowerS text
  match BANNED_PHRASES.find? (fun phrase => containsSubS phrase lower) with
  | some phrase => (true, phrase)
  | none => (false, "")

/-- `_contains_bullets`: some line whose stripped, lowercased form starts with
`-`, `*` or `•`. -/
def containsBullets (text : String) : Bool :=
  (pySplitLines text).any (fun line =>
    let stripped := toLowerS (pyStripS line)
    match stripped.data with
    | [] => false
    | c :: _ => c = '-' || c = '*' || c = '•')

/-- `_reads_generic_template`. -/
def readsGenericTemplate (text : String) : Bool × String :=
  let lower := toLowerS text
  match GENERIC_TEMPLATES.find? (fun phrase => containsSubS phrase lower) with
  | some phrase => (true, phrase)
  | none => (false, "")

/-- The parsed resume profile record (`ResumeProfile` in the spec; a dict with
these keys in the code). -/
structure ResumeProfile where
  name : String
  current_title : String
  summary : String
  skills : List String
  experience : List String
  projects : List String
  raw_text : String
deriving Repr, DecidableEq

/-- The parsed job description record (`JobDescriptor` in the spec). -/
structure JobDescriptor where
  company : String
  role : String
  summary : String
  key_skills : List String
  email : String
  raw_text : String
deriving Repr, DecidableEq

/-- `_strip_list`: strip each entry, keep the non-blank ones. -/
def stripList (items : List String) : List String :=
  (items.map pyStripS).filter (fun s => s ≠ "")

/-- `normalize_jd`: trim every string field, clean the skill list. -/
def normalizeJd (jd : JobDescriptor) : JobDescriptor :=
  { jd with
    company := pyStripS jd.company
    role := pyStripS jd.role
    summary := pyStripS jd.summary
    email := pyStripS jd.email
    key_skills := stripList jd.key_skills }

/-- `_resume_corpus`: the non-empty scalar fields followed by every list item
(blank or not), joined with `" \n"` and lowercased. -/
def resumeCorpus (p : ResumeProfile) : String :=
  let parts :=
    (if p.summary ≠ "" then [p.summary] else []) ++
    (if p.current_title ≠ "" then [p.current_title] else []) ++
    (if p.name ≠ "" then [p.name] else []) ++
    p.skills ++ p.experience ++ p.projects
  toLowerS (pyJoin " \n" parts)

/-- `_count_claims`: sentence-like chunks containing a verb-vocabulary token. -/
def countClaims (body : String) : Nat :=
  ((splitSentences body).filter (fun chunk =>
    let words := (findWordTokens chunk).map toLowerS
    words ≠ [] && words.any (fun w => VERBS.contains w))).length

/-- `_noun_heavy`. -/
def nounHeavy (body : String) : Bool :=
  let words := (findWordTokens body).map toLowerS
  if words.isEmpty then false
  else
    let verbs := (words.filter (fun w => VERBS.contains w)).length
    let nouns := (words.filter (fun w =>
      pyEndsWith w "ion" || pyEndsWith w "ment" || pyEndsWith w "ness" ||
      pyEndsWith w "ity" || pyEndsWith w "ence" || pyEndsWith w "ance" ||
      pyEndsWith w "ism")).length
    nouns > verbs * 2 + 2

/-- `_looks_like_resume_summary`. -/
def looksLikeResumeSummary (body : String) : Bool :=
  let lower := toLowerS body
  if RESUME_SUMMARY_MARKERS.any (fun marker => containsSubS marker lower) then true
  else
    let firstLine := match pySplitLines body with
      | [] => ""
      | l :: _ => l
    let verbPresent := VERBS.any (fun v => (pySplitNoArg (toLowerS firstLine)).contains v)
    let commaCount := (firstLine.data.filter (fun c => c = ',')).length
    commaCount ≥ 2 && !verbPresent

/-- `_paragraphs_ok`: between 1 and 6 non-blank sentence chunks. -/
def paragraphsOk (body : String) : Bool :=
  let sentences := (splitSentences body).filter (fun s => pyStripS s ≠ "")
  0 < sentences.length && sentences.length ≤ 6

/-- `_repeats_jd_language`.  Python compares the float
`len(inter) / max(len(jd_words), 1)` with the literal `0.6`; for the integer
sizes involved that comparison is exactly the rational test
`5 * len(inter) > 3 * max(len(jd_words), 1)`. -/
def repeatsJdLanguage (emailText : String) (jdSummary : String) : Bool :=
  if pyStripS jdSummary = "" then false
  else
    let emailWords := (findLongWords (toLowerS emailText)).dedup
    let jdWords := (findLongWords (toLowerS jdSummary)).dedup
    if jdWords.isEmpty then false
    else
      let overlapCount := (emailWords.filter (fun w => jdWords.contains w)).length
      5 * overlapCount > 3 * max jdWords.length 1

/-- The scan inside `_mentions_unbacked_jd_skills`: first key skill that is
mentioned in the email but absent from the resume corpus. -/
def firstUnbackedSkill (emailLower blob : String) : List String → Bool × String
  | [] => (false, "")
  | skill :: rest =>
      let s := toLowerS (pyStripS skill)
      if s = "" then firstUnbackedSkill emailLower blob rest
      else if containsSubS s emailLower && !containsSubS s blob then (true, skill)
      else firstUnbackedSkill emailLower blob rest

/-- `_mentions_unbacked_jd_skills`. -/
def mentionsUnbackedJdSkills (emailText : String) (p : ResumeProfile)
    (jd : JobDescriptor) : Bool × String :=
  firstUnbackedSkill (toLowerS emailText) (resumeCorpus p) jd.key_skills

/-- The required closing sentence, lowercased as compared in the validator. -/
def closingLine : String := "resume attached. happy to share more details if useful."

/-- The `full_text` f-string of `_validate_email_output`:
`f"{subject}\n{body}\n{signature}"`. -/
def validateFullText (subject body signature : String) : String :=
  subject ++ "\n" ++ body ++ "\n" ++ signature

/-- `_validate_email_output`: the 14-rule short-circuiting pipeline. -/
def validateEmailOutput (subject body signature : String) (p : ResumeProfile)
    (jd : JobDescriptor) : Bool × String :=
  let fullText := validateFullText subject body signature
  let lowerBody := toLowerS body
  if wordCount body > 120 then (false, "Word count exceeds 120")
  else if countClaims body > 3 then (false, "Too many claims")
  else if (containsBannedPhrase fullText).1 then
    (false, "Contains banned phrase: " ++ (containsBannedPhrase fullText).2)
  else if (readsGenericTemplate fullText).1 then
    (false, "Generic template language detected: " ++ (readsGenericTemplate fullText).2)
  else if adjectiveHeavy fullText then (false, "Too many adjectives vs verbs")
  else if nounHeavy body then (false, "Too noun-heavy vs verbs")
  else if looksLikeResumeSummary body then (false, "Reads like a resume summary")
  else if repeatsJdLanguage fullText jd.summary then
    (false, "Repeats JD language too closely")
  else if (mentionsUnbackedJdSkills fullText p jd).1 then
    (false, "Mentions skill not in resume: " ++ (mentionsUnbackedJdSkills fullText p jd).2)
  else if containsBullets body then (false, "Contains bullet points")
  else if containsSubS "<name" lowerBody || containsSubS "signature:" lowerBody then
    (false, "Contains placeholder or signature markers")
  else if !containsSubS closingLine lowerBody then
    (false, "Missing required closing line")
  else if !paragraphsOk body then
    (false, "Paragraph structure not in expected 2-3 short paragraphs")
  else if body = "" then (false, "Empty email body")
  else (true, "")

/-- The characters of a line after its first `:` (model of
`line.split(":", 1)[1]`, used only on lines that contain a colon). -/
def afterFirstColon : List Char → List Char
  | [] => []
  | c :: rest => if c = ':' then rest else afterFirstColon rest

/-- The line scan of `_parse_generated_email`: accumulate the subject and the
body lines.  `inBody` models `mode == "body"` (a subject line resets it). -/
def parseLines (subject : String) (bodyLines : List String) (inBody : Bool) :
    List String → String × List String
  | [] => (subject, bodyLines)
  | rawLine :: rest =>
      let line := pyStripS rawLine
      let lower := toLowerS line
      if "subject:".data.isPrefixOf lower.data then
        parseLines ⟨pyStripL (afterFirstColon line.data)⟩ bodyLines false rest
      else if "email body:".data.isPrefixOf lower.data then
        parseLines subject bodyLines true rest
      else if inBody then
        parseLines subject (bodyLines ++ [rawLine]) inBody rest
      else
        parseLines subject bodyLines inBody rest

/-- The fallback filter of `_parse_generated_email`: drop marker lines. -/
def parseFallbackLines (lines : List String) : List String :=
  lines.filter (fun rawLine =>
    let lowerLine := toLowerS (pyStripS rawLine)
    !("subject:".data.isPrefixOf lowerLine.data) &&
    !("email body:".data.isPrefixOf lowerLine.data))

/-- `_parse_generated_email`: split raw model output into
(subject, body, signature-placeholder). -/
def parseGeneratedEmail (text : String) : String × String × String :=
  let (subject, bodyLines) := parseLines "" [] false (pySplitLines text)
  let body := pyStripS (pyJoin "\n" bodyLines)
  let body :=
    if body = "" && pyStripS text ≠ "" then
      pyStripS (pyJoin "\n" (parseFallbackLines (pySplitLines text)))
    else body
  (subject, body, "")

/-- `re.split(r"(?<=[.!?])\s+", s)`: a separator is a whitespace run directly
preceded by sentence punctuation (which stays with the piece on its left).
State: `0` = in a piece after a non-punctuation character (or at the start),
`1` = in a piece right after sentence punctuation, `2` = inside a separator
run. -/
def sentLbGo (st : Nat) (cur : List Char) : List Char → List String
  | [] => [⟨cur.reverse⟩]
  | c :: rest =>
      if st = 2 then
        if isPySpace c then sentLbGo 2 [] rest
        else sentLbGo (if isSentencePunct c then 1 else 0) [c] rest
      else
        if st = 1 && isPySpace c then ⟨cur.reverse⟩ :: sentLbGo 2 [] rest
        else sentLbGo (if isSentencePunct c then 1 else 0) (c :: cur) rest

/-- `re.split(r"(?<=[.!?])\s+", s)` (JD-summary sentence split). -/
def splitSentencesKeepPunct (s : String) : List String := sentLbGo 0 [] s.data

/-- The highlight-collection loop of `_build_context`: append stripped
non-blank blocks until two highlights are held. -/
def addHighlights (blocks : List String) (acc : List String) : List String :=
  match blocks with
  | [] => acc
  | b :: rest =>
      if acc.length ≥ 2 then acc
      else if pyStripS b ≠ "" then addHighlights rest (acc ++ [pyStripS b])
      else addHighlights rest acc

/-- The highlights of `_build_context`: up to 2 non-blank experience entries,
topped up from projects. -/
def highlightsOf (p : ResumeProfile) : List String :=
  let highlights := addHighlights p.experience []
  let highlights :=
    if highlights.length < 2 then addHighlights p.projects highlights
    else highlights
  highlights.take 2

/-- The `highlights_section` string of `_build_context`:
`"\n".join(f"- {line}" if line else "- " for line in (highlights or [""]))`. -/
def highlightsSection (p : ResumeProfile) : String :=
  let highlights := highlightsOf p
  let base := if highlights = [] then [""] else highlights
  pyJoin "\n" (base.map (fun line => if line ≠ "" then "- " ++ line else "- "))

/-- `_build_context`: the prompt context block. -/
def buildContext (p : ResumeProfile) (jd : JobDescriptor) : String :=
  let company := jd.company
  let role := jd.role
  let jdSummaryRaw := pyStripS jd.summary
  let jdSentences := splitSentencesKeepPunct jdSummaryRaw
  let jdSummary := pyStripS (pyJoin " " (jdSentences.take 3))
  let resumeSummary :=
    pyStripS (if p.summary ≠ "" then p.summary
              else if p.current_title ≠ "" then p.current_title else "")
  "Company Name: " ++ company ++ "\nRole Title: " ++ role ++
  "\n\nJD Summary:\n" ++ jdSummary ++
  "\n\nResume Summary:\n" ++ resumeSummary ++
  "\n\nRelevant Resume Highlights:\n" ++ highlightsSection p ++ "\n"

/-- A generated draft: the dict `{"subject": …, "body": …, "signature": ""}`
returned by `generate_email`. -/
structure Draft where
  subject : String
  body : String
  signature : String
deriving Repr, DecidableEq

/-- One retry-loop iteration of `generate_email` beyond the completion call:
strip the raw output, parse, sanitize, validate.  The completion service is
abstracted as a function from the attempt index to either an exception
message (`Except.error`) or the raw completion text. -/
def attemptOutcome (p : ResumeProfile) (jd : JobDescriptor)
    (completions : Nat → Except String String) (i : Nat) : Except String Draft :=
  match completions i with
  | .error e => .error e
  | .ok content =>
      let rawOutput := pyStripS content
      let parsed := parseGeneratedEmail rawOutput
      let subject := sanitizeBanned parsed.1
      let body := sanitizeBanned parsed.2.1
      let verdict := validateEmailOutput subject body "" p jd
      if verdict.1 then .ok ⟨subject, body, ""⟩ else .error verdict.2

/-- The `while attempts < 3` loop of `generate_email`, with the remaining
attempt budget made explicit (`remaining = 3 - attempts`). -/
def generateEmailGo (p : ResumeProfile) (jd : JobDescriptor)
    (completions : Nat → Except String String) :
    Nat → Nat → String → Except String Draft
  | 0, _, lastError => .error ("Failed to generate email after validation: " ++ lastError)
  | remaining + 1, attempts, _lastError =>
      match attemptOutcome p jd completions attempts with
      | .ok d => .ok d
      | .error r => generateEmailGo p jd completions remaining (attempts + 1) r

/-- `generate_email`: up to 3 attempts, surfacing the last error on
exhaustion. -/
def generateEmail (p : ResumeProfile) (jd : JobDescriptor)
    (completions : Nat → Except String String) : Except String Draft :=
  generateEmailGo p jd completions 3 0 ""

/-- The final email dict of `compose_full_email`
(`from`/`to` are spelled `fromAddr`/`toAddr`). -/
structure EmailMessage where
  subject : String
  body : String
  fromAddr : String
  toAddr : String
deriving Repr, DecidableEq

/-- Python `recipient_email or jd_email`: `None` and `""` are falsy. -/
def pyOrOpt (r : Option String) (d : String) : String :=
  match r with
  | none => d
  | some s => if s = "" then d else s

/-- `compose_full_email`.  `senderEmail` stands for the configured
`SENDER_EMAIL` constant. -/
def composeFullEmail (p : ResumeProfile) (jdData : JobDescriptor)
    (recipientEmail : Option String) (senderEmail : String)
    (completions : Nat → Except String String) : Except String EmailMessage :=
  let jd := normalizeJd jdData
  let role := pyStripS jd.role
  let toEmail := pyStripS (pyOrOpt recipientEmail jd.email)
  if toEmail = "" then
    .error "No recipient email found. Please provide email as query parameter: ?email=hiring@company.com"
  else
    match generateEmail p jd completions with
    | .error e => .error e
    | .ok generated =>
        let subject := pyStripS generated.subject
        let subject :=
          if subject = "" then
            if role ≠ "" then "Application – " ++ role
            else "Application – This Role"
          else subject
        let body := pyStripS generated.body
        let senderName := pyStripS p.name
        let body :=
          if senderName ≠ "" then body ++ "\n\nThanks,\n" ++ senderName
          else body
        .ok ⟨subject, body, senderEmail, toEmail⟩

/-! ## Concrete fixtures used by witnesses and counterexamples -/

/-- The composer's "no recipient" message. -/
def noRecipientMsg : String :=
  "No recipient email found. Please provide email as query parameter: ?email=hiring@company.com"

/-- An all-blank resume profile, used as a concrete test fixture. -/
def emptyProfile : ResumeProfile := ⟨"", "", "", [], [], [], ""⟩

/-- An all-blank job descriptor, used as a concrete test fixture. -/
def emptyJd : JobDescriptor := ⟨"", "", "", [], "", ""⟩

/-- A 121-word body (121 > 120). -/
def longBody : String := pyJoin " " (List.replicate 121 "w")

/-- A 121-word body that mentions "Kubernetes". -/
def kubernetesBody : String := pyJoin " " ("Kubernetes" :: List.replicate 120 "w")

/-- A job descriptor whose only key skill is "Kubernetes". -/
def jdKubernetes : JobDescriptor := ⟨"", "", "", ["Kubernetes"], "", ""⟩

/-- A concrete parsed resume profile. -/
def profileA : ResumeProfile :=
  ⟨"Asha Rao", "", "backend engineer", [], ["Built a REST API at Acme"], [], ""⟩

/-- A concrete job descriptor with a recipient address. -/
def jdA : JobDescriptor := ⟨"Acme", "SWE", "", ["REST"], "hr@acme.com", ""⟩

/-- A concrete well-formed raw completion. -/
def rawA : String :=
  "Subject: Application – SWE\nEmail body:\nI built a REST API at Acme.\n\nResume attached. Happy to share more details if useful."

/-- The body parsed from `rawA`. -/
def rawBodyA : String :=
  "I built a REST API at Acme.\n\nResume attached. Happy to share more details if useful."

/-- The sanitized form of `rawBodyA`. -/
def sanBodyA : String :=
  "I built a REST API at Acme. Resume attached. Happy to share more details if useful."

/-- The accepted draft produced from `rawA`. -/
def draftA : Draft := ⟨"Application – SWE", sanBodyA, ""⟩

/-! ## Helper lemmas -/

set_option maxRecDepth 1000000

/-- Two strings differ when the first is an extension of something already
longer than the second. -/
theorem string_append_ne_of_length_lt (a b t : String) (h : t.length < a.length) :
    a ++ b ≠ t := by
  intro heq
  have hl := congrArg String.length heq
  rw [String.length_append] at hl
  omega

/-- The second component of a conditional differs from `t` when both branches'
second components do. -/
theorem snd_ite_ne (c : Prop) [Decidable c] (a b : Bool × String) (t : String)
    (ha : a.2 ≠ t) (hb : b.2 ≠ t) : (if c then a else b).2 ≠ t := by
  by_cases h : c
  · rwa [if_pos h]
  · rwa [if_neg h]

/-- The first component of a conditional is `false` when both branches'
first components are. -/
theorem fst_ite_false (c : Prop) [Decidable c] (a b : Bool × String)
    (ha : a.1 = false) (hb : b.1 = false) : (if c then a else b).1 = false := by
  by_cases h : c
  · rwa [if_pos h]
  · rwa [if_neg h]

/-! ## C4: rule 1 short-circuits the validator -/

/-- C4: for every draft whose body has a word count greater than 120, the
Validator returns exactly `(False, "Word count exceeds 120")`, whatever the
other fields and records contain — rule 1 runs first and short-circuits the
pipeline, so no later rule's reason can be returned. -/
theorem validator_word_count_rule_first (subject body signature : String)
    (p : ResumeProfile) (jd : JobDescriptor) (h : wordCount body > 120) :
    validateEmailOutput subject body signature p jd = (false, "Word count exceeds 120") := by
  simp only [validateEmailOutput, if_pos h]

/-- Witness for C4 at a concrete 121-word body. -/
theorem validator_word_count_rule_first_witness :
    wordCount longBody > 120 ∧
    validateEmailOutput "A subject" longBody "" emptyProfile emptyJd =
      (false, "Word count exceeds 120") :=
  ⟨by decide, validator_word_count_rule_first _ _ _ _ _ (by decide)⟩

/-! ## C10: the "Empty email body" rejection is unreachable -/

/-- C10: the Validator's `"Empty email body"` reason is dead code.  (i) No
call to the Validator ever returns that reason: an empty body already fails
the closing-line containment check (rule 12), which runs earlier, and every
other reason is a different string.  (ii) An empty body (any subject, empty
signature) is always rejected.  (iii) When the subject triggers none of the
earlier subject-sensitive rules, the returned reason for an empty body is
exactly `"Missing required closing line"`. -/
theorem validator_empty_body_reason_unreachable :
    (∀ subject body signature p jd,
      (validateEmailOutput subject body signature p jd).2 ≠ "Empty email body")
    ∧ (∀ subject p jd, (validateEmailOutput subject "" "" p jd).1 = false)
    ∧ (∀ subject p jd,
        (containsBannedPhrase (validateFullText subject "" "")).1 = false →
        (readsGenericTemplate (validateFullText subject "" "")).1 = false →
        adjectiveHeavy (validateFullText subject "" "") = false →
        repeatsJdLanguage (validateFullText subject "" "") jd.summary = false →
        (mentionsUnbackedJdSkills (validateFullText subject "" "") p jd).1 = false →
        validateEmailOutput subject "" "" p jd = (false, "Missing required closing line")) := by
  refine ⟨?_, ?_, ?_⟩
  · intro subject body signature p jd
    simp only [validateEmailOutput]
    refine snd_ite_ne _ _ _ _ (by decide) ?_
    refine snd_ite_ne _ _ _ _ (by decide) ?_
    refine snd_ite_ne _ _ _ _ (string_append_ne_of_length_lt _ _ _ (by decide)) ?_
    refine snd_ite_ne _ _ _ _ (string_append_ne_of_length_lt _ _ _ (by decide)) ?_
    refine snd_ite_ne _ _ _ _ (by decide) ?_
    refine snd_ite_ne _ _ _ _ (by decide) ?_
    refine snd_ite_ne _ _ _ _ (by decide) ?_
    refine snd_ite_ne _ _ _ _ (by decide) ?_
    refine snd_ite_ne _ _ _ _ (string_append_ne_of_length_lt _ _ _ (by decide)) ?_
    refine snd_ite_ne _ _ _ _ (by decide) ?_
    refine snd_ite_ne _ _ _ _ (by decide) ?_
    by_cases hcl : containsSubS closingLine (toLowerS body) = true
    · rw [if_neg (by simp [hcl])]
      refine snd_ite_ne _ _ _ _ (by decide) ?_
      by_cases hb : body = ""
      · subst hb
        exact absurd hcl (by decide)
      · rw [if_neg hb]
        decide
    · rw [if_pos (by simp [Bool.not_eq_true] at hcl ⊢; exact hcl)]
      decide
  · intro subject p jd
    simp only [validateEmailOutput]
    refine fst_ite_false _ _ _ rfl ?_
    refine fst_ite_false _ _ _ rfl ?_
    refine fst_ite_false _ _ _ rfl ?_
    refine fst_ite_false _ _ _ rfl ?_
    refine fst_ite_false _ _ _ rfl ?_
    refine fst_ite_false _ _ _ rfl ?_
    refine fst_ite_false _ _ _ rfl ?_
    refine fst_ite_false _ _ _ rfl ?_
    refine fst_ite_false _ _ _ rfl ?_
    refine fst_ite_false _ _ _ rfl ?_
    refine fst_ite_false _ _ _ rfl ?_
    rw [if_pos (by decide)]
  · intro subject p jd h1 h2 h3 h4 h5
    simp only [validateEmailOutput]
    rw [if_neg (by decide), if_neg (by decide), if_neg (by simp [h1]), if_neg (by simp [h2]),
      if_neg (by simp [h3]), if_neg (by decide), if_neg (by decide), if_neg (by simp [h4]),
      if_neg (by simp [h5]), if_neg (by decide), if_neg (by decide), if_pos (by decide)]

/-- Witness for C10 at a concrete subject and empty body. -/
theorem validator_empty_body_reason_unreachable_witness :
    validateEmailOutput "A subject" "" "" emptyProfile emptyJd =
      (false, "Missing required closing line") :=
  validator_empty_body_reason_unreachable.2.2 "A subject" emptyProfile emptyJd
    (by decide) (by decide) (by decide) (by decide) (by decide)

/-! ## C5: missing closing line -/

/-- Counterexample to C5 as stated: a body that lacks the required closing
sentence but also exceeds the word cap is rejected with the word-count
reason, not the closing-line reason — earlier rules preempt rule 12. -/
theorem closing_line_reason_preempted_counterexample :
    containsSubS closingLine (toLowerS longBody) = false ∧
    validateEmailOutput "A subject" longBody "" emptyProfile emptyJd =
      (false, "Word count exceeds 120") ∧
    ("Word count exceeds 120" : String) ≠ "Missing required closing line" :=
  ⟨by decide, by decide, by decide⟩

/-- C5 as amended: a draft whose body lacks the required closing sentence is
always rejected, and when none of the earlier rules 1–11 fires the reason is
exactly `"Missing required closing line"` (the later paragraph-shape and
empty-body rules can never preempt it); an earlier rule that fires supplies
its own reason instead. -/
theorem validator_missing_closing_line (subject body signature : String)
    (p : ResumeProfile) (jd : JobDescriptor)
    (hclose : containsSubS closingLine (toLowerS body) = false) :
    (validateEmailOutput subject body signature p jd).1 = false
    ∧ (¬ wordCount body > 120 →
       ¬ countClaims body > 3 →
       (containsBannedPhrase (validateFullText subject body signature)).1 = false →
       (readsGenericTemplate (validateFullText subject body signature)).1 = false →
       adjectiveHeavy (validateFullText subject body signature) = false →
       nounHeavy body = false →
       looksLikeResumeSummary body = false →
       repeatsJdLanguage (validateFullText subject body signature) jd.summary = false →
       (mentionsUnbackedJdSkills (validateFullText subject body signature) p jd).1 = false →
       containsBullets body = false →
       (containsSubS "<name" (toLowerS body) || containsSubS "signature:" (toLowerS body)) = false →
       validateEmailOutput subject body signature p jd =
         (false, "Missing required closing line")) := by
  constructor
  · simp only [validateEmailOutput]
    refine fst_ite_false _ _ _ rfl ?_
    refine fst_ite_false _ _ _ rfl ?_
    refine fst_ite_false _ _ _ rfl ?_
    refine fst_ite_false _ _ _ rfl ?_
    refine fst_ite_false _ _ _ rfl ?_
    refine fst_ite_false _ _ _ rfl ?_
    refine fst_ite_false _ _ _ rfl ?_
    refine fst_ite_false _ _ _ rfl ?_
    refine fst_ite_false _ _ _ rfl ?_
    refine fst_ite_false _ _ _ rfl ?_
    refine fst_ite_false _ _ _ rfl ?_
    rw [if_pos (by simp [hclose])]
  · intro h1 h2 h3 h4 h5 h6 h7 h8 h9 h10 h11
    simp only [validateEmailOutput]
    rw [if_neg h1, if_neg h2, if_neg (by simp [h3]), if_neg (by simp [h4]),
      if_neg (by simp [h5]), if_neg (by simp [h6]), if_neg (by simp [h7]),
      if_neg (by simp [h8]), if_neg (by simp [h9]), if_neg (by simp [h10]),
      if_neg (by simp [h11]), if_pos (by simp [hclose])]

/-- Witness for C5 (amended) at a concrete closing-less draft that passes all
earlier rules. -/
theorem validator_missing_closing_line_witness :
    validateEmailOutput "A subject" "I built an API." "" emptyProfile emptyJd =
      (false, "Missing required closing line") :=
  (validator_missing_closing_line "A subject" "I built an API." "" emptyProfile emptyJd
    (by decide)).2 (by decide) (by decide) (by decide) (by decide) (by decide)
    (by decide) (by decide) (by decide) (by decide) (by decide) (by decide)

/-! ## C3: unbacked JD skills -/

/-- If some skill in the list is mentioned in the email but missing from the
resume corpus (and non-blank after normalization), the unbacked-skill scan
reports a hit. -/
theorem firstUnbackedSkill_hit (el blob : String) (skills : List String) (skill : String)
    (hmem : skill ∈ skills)
    (hns : toLowerS (pyStripS skill) ≠ "")
    (hmention : containsSubS (toLowerS (pyStripS skill)) el = true)
    (hnotcorpus : containsSubS (toLowerS (pyStripS skill)) blob = false) :
    (firstUnbackedSkill el blob skills).1 = true := by
  induction skills with
  | nil => cases hmem
  | cons k rest ih =>
      simp only [firstUnbackedSkill]
      by_cases hs : toLowerS (pyStripS k) = ""
      · rw [if_pos hs]
        rcases List.mem_cons.mp hmem with heq | hrest
        · subst heq; exact absurd hs hns
        · exact ih hrest
      · rw [if_neg hs]
        by_cases hc : (containsSubS (toLowerS (pyStripS k)) el &&
            !containsSubS (toLowerS (pyStripS k)) blob) = true
        · rw [if_pos hc]
        · rw [if_neg hc]
          rcases List.mem_cons.mp hmem with heq | hrest
          · subst heq
            exact absurd (by simp [hmention, hnotcorpus]) hc
          · exact ih hrest

/-- Counterexample to C3 as stated: a sanitized draft that mentions the JD
key skill "Kubernetes" (absent from the resume corpus) but also exceeds the
word cap is rejected with the word-count reason, which does not name the
skill — earlier rules preempt the grounding rule. -/
theorem unbacked_skill_reason_preempted_counterexample :
    "Kubernetes" ∈ jdKubernetes.key_skills ∧
    containsSubS (toLowerS (pyStripS "Kubernetes"))
      (toLowerS (validateFullText "A subject" kubernetesBody "")) = true ∧
    containsSubS (toLowerS (pyStripS "Kubernetes")) (resumeCorpus emptyProfile) = false ∧
    sanitizeBanned kubernetesBody = kubernetesBody ∧
    validateEmailOutput "A subject" kubernetesBody "" emptyProfile jdKubernetes =
      (false, "Word count exceeds 120") ∧
    containsSubS "kubernetes" (toLowerS "Word count exceeds 120") = false :=
  ⟨by decide, by decide, by decide, by decide, by decide, by decide⟩

/-- C3 as amended: a draft mentioning a JD key skill that the resume corpus
does not back is always rejected (rule 9 guarantees rejection if no earlier
rule fired first); and when the skill is the only key skill and none of rules
1–8 fires, the reason names that skill exactly.  An earlier rule that fires
supplies its own reason instead of naming the skill. -/
theorem validator_unbacked_skill_rejected (subject body signature skill : String)
    (p : ResumeProfile) (jd : JobDescriptor)
    (hmem : skill ∈ jd.key_skills)
    (hns : toLowerS (pyStripS skill) ≠ "")
    (hmention : containsSubS (toLowerS (pyStripS skill))
      (toLowerS (validateFullText subject body signature)) = true)
    (hnotcorpus : containsSubS (toLowerS (pyStripS skill)) (resumeCorpus p) = false) :
    (validateEmailOutput subject body signature p jd).1 = false
    ∧ (jd.key_skills = [skill] →
       ¬ wordCount body > 120 →
       ¬ countClaims body > 3 →
       (containsBannedPhrase (validateFullText subject body signature)).1 = false →
       (readsGenericTemplate (validateFullText subject body signature)).1 = false →
       adjectiveHeavy (validateFullText subject body signature) = false →
       nounHeavy body = false →
       looksLikeResumeSummary body = false →
       repeatsJdLanguage (validateFullText subject body signature) jd.summary = false →
       validateEmailOutput subject body signature p jd =
         (false, "Mentions skill not in resume: " ++ skill)) := by
  have hhit : (mentionsUnbackedJdSkills (validateFullText subject body signature) p jd).1 = true :=
    firstUnbackedSkill_hit _ _ _ _ hmem hns hmention hnotcorpus
  constructor
  · simp only [validateEmailOutput]
    refine fst_ite_false _ _ _ rfl ?_
    refine fst_ite_false _ _ _ rfl ?_
    refine fst_ite_false _ _ _ rfl ?_
    refine fst_ite_false _ _ _ rfl ?_
    refine fst_ite_false _ _ _ rfl ?_
    refine fst_ite_false _ _ _ rfl ?_
    refine fst_ite_false _ _ _ rfl ?_
    refine fst_ite_false _ _ _ rfl ?_
    rw [if_pos (by simp [hhit])]
  · intro hks h1 h2 h3 h4 h5 h6 h7 h8
    have hmu : mentionsUnbackedJdSkills (validateFullText subject body signature) p jd =
        (true, skill) := by
      simp only [mentionsUnbackedJdSkills, hks, firstUnbackedSkill]
      rw [if_neg hns, if_pos (by simp [hmention, hnotcorpus])]
    simp only [validateEmailOutput]
    rw [if_neg h1, if_neg h2, if_neg (by simp [h3]), if_neg (by simp [h4]),
      if_neg (by simp [h5]), if_neg (by simp [h6]), if_neg (by simp [h7]),
      if_neg (by simp [h8]), if_pos (by simp [hmu]), hmu]

/-- Witness for C3 (amended) at a concrete draft mentioning "Kubernetes". -/
theorem validator_unbacked_skill_rejected_witness :
    validateEmailOutput "A subject" "Kubernetes" "" emptyProfile jdKubernetes =
      (false, "Mentions skill not in resume: Kubernetes") :=
  (validator_unbacked_skill_rejected "A subject" "Kubernetes" "" "Kubernetes"
    emptyProfile jdKubernetes (by decide) (by decide) (by decide) (by decide)).2
    rfl (by decide) (by decide) (by decide) (by decide) (by decide) (by decide)
    (by decide) (by decide)

/-! ## C2: the retry controller -/

/-- Unfolding of the three-iteration retry loop. -/
theorem generateEmail_unfold (p : ResumeProfile) (jd : JobDescriptor)
    (completions : Nat → Except String String) :
    generateEmail p jd completions =
      match attemptOutcome p jd completions 0 with
      | .ok d => .ok d
      | .error _ =>
        match attemptOutcome p jd completions 1 with
        | .ok d => .ok d
        | .error _ =>
          match attemptOutcome p jd completions 2 with
          | .ok d => .ok d
          | .error r2 => .error ("Failed to generate email after validation: " ++ r2) := by
  show generateEmailGo p jd completions 3 0 "" = _
  cases h0 : attemptOutcome p jd completions 0 with
  | ok d => simp [generateEmailGo, h0]
  | error r0 =>
      cases h1 : attemptOutcome p jd completions 1 with
      | ok d => simp [generateEmailGo, h0, h1]
      | error r1 =>
          cases h2 : attemptOutcome p jd completions 2 with
          | ok d => simp [generateEmailGo, h0, h1, h2]
          | error r2 => simp [generateEmailGo, h0, h1, h2]

/-- C2: the Retry Controller makes at most 3 attempts; only the outcomes of
attempts 0, 1 and 2 can influence the result (part iii).  When all three fail
— by exception or by validation rejection (`attemptOutcome` merges both, as
the code stores either the exception message or the rejection reason) — it
raises the error whose message carries exactly the 3rd attempt's reason
(part i).  An accepted attempt `k` returns its draft immediately (part ii). -/
theorem retry_controller_spec :
    (∀ p jd completions r0 r1 r2,
      attemptOutcome p jd completions 0 = .error r0 →
      attemptOutcome p jd completions 1 = .error r1 →
      attemptOutcome p jd completions 2 = .error r2 →
      generateEmail p jd completions =
        .error ("Failed to generate email after validation: " ++ r2))
    ∧ (∀ p jd completions k d,
      k < 3 →
      (∀ i, i < k → ∃ r, attemptOutcome p jd completions i = .error r) →
      attemptOutcome p jd completions k = .ok d →
      generateEmail p jd completions = .ok d)
    ∧ (∀ p jd completions completions',
      (∀ i, i < 3 → completions i = completions' i) →
      generateEmail p jd completions = generateEmail p jd completions') := by
  refine ⟨?_, ?_, ?_⟩
  · intro p jd completions r0 r1 r2 h0 h1 h2
    rw [generateEmail_unfold, h0, h1, h2]
  · intro p jd completions k d hk hprev hok
    match k with
    | 0 => rw [generateEmail_unfold, hok]
    | 1 =>
        obtain ⟨r0, h0⟩ := hprev 0 (by omega)
        rw [generateEmail_unfold, h0, hok]
    | 2 =>
        obtain ⟨r0, h0⟩ := hprev 0 (by omega)
        obtain ⟨r1, h1⟩ := hprev 1 (by omega)
        rw [generateEmail_unfold, h0, h1, hok]
  · intro p jd completions completions' hsame
    have hao : ∀ i, i < 3 →
        attemptOutcome p jd completions i = attemptOutcome p jd completions' i := by
      intro i hi
      simp only [attemptOutcome, hsame i hi]
    rw [generateEmail_unfold, generateEmail_unfold,
      hao 0 (by omega), hao 1 (by omega), hao 2 (by omega)]

/-- Witness for C2: three concrete failing attempts surface the third
attempt's message. -/
theorem retry_controller_spec_witness :
    generateEmail emptyProfile emptyJd
      (fun i => if i = 0 then .error "first failure"
                else if i = 1 then .error "second failure"
                else .error "third failure") =
      .error "Failed to generate email after validation: third failure" :=
  retry_controller_spec.1 emptyProfile emptyJd _ "first failure" "second failure"
    "third failure" rfl rfl rfl

/-! ## C7: missing recipient fails before any generation attempt -/

/-- C7: when the explicit recipient override and the JD's email field are both
blank after trimming, `compose_full_email` fails with the "no recipient" error
for every behaviour of the completion service — so the check happens before
any generation attempt and no completion call is consumed — and the error is
distinct from every retry-exhaustion error (those start with
`"Failed to generate email after validation: "`). -/
theorem composer_no_recipient_fails_fast (p : ResumeProfile) (jdData : JobDescriptor)
    (recipientEmail : Option String) (senderEmail : String)
    (hov : ∀ s, recipientEmail = some s → pyStripS s = "")
    (hjd : pyStripS jdData.email = "") :
    (∀ completions,
      composeFullEmail p jdData recipientEmail senderEmail completions = .error noRecipientMsg)
    ∧ (∀ r, noRecipientMsg ≠ "Failed to generate email after validation: " ++ r) := by
  constructor
  · intro completions
    have hto : pyStripS (pyOrOpt recipientEmail (normalizeJd jdData).email) = "" := by
      cases recipientEmail with
      | none =>
          show pyStripS (pyStripS jdData.email) = ""
          rw [hjd]; rfl
      | some s =>
          by_cases hs : s = ""
          · simp only [pyOrOpt, if_pos hs]
            show pyStripS (pyStripS jdData.email) = ""
            rw [hjd]; rfl
          · simp only [pyOrOpt, if_neg hs]
            exact hov s rfl
    simp only [composeFullEmail, hto]
    rw [if_pos trivial]
    rfl
  · intro r heq
    have h2 : noRecipientMsg.data.head? =
        ("Failed to generate email after validation: " ++ r).data.head? := by rw [heq]
    have h3 : ("Failed to generate email after validation: " ++ r).data.head? = some 'F' := rfl
    rw [h3] at h2
    exact absurd h2 (by decide)

/-- Witness for C7 at concrete blank inputs. -/
theorem composer_no_recipient_fails_fast_witness :
    composeFullEmail emptyProfile emptyJd (some "   ") "sender@example.com"
      (fun _ => .ok "Subject: s\nEmail body:\nb") = .error noRecipientMsg ∧
    noRecipientMsg ≠ "Failed to generate email after validation: " ++ "anything" :=
  ⟨(composer_no_recipient_fails_fast emptyProfile emptyJd (some "   ") "sender@example.com"
      (fun s hs => by cases hs; decide) (by decide)).1 _,
   (composer_no_recipient_fails_fast emptyProfile emptyJd (some "   ") "sender@example.com"
      (fun s hs => by cases hs; decide) (by decide)).2 "anything"⟩

/-! ## C8: composer post-processing -/

/-- The head of a `dropWhile` result never satisfies the predicate. -/
theorem head_of_dropWhile_not (p : Char → Bool) (l : List Char) :
    ∀ c, (l.dropWhile p).head? = some c → p c = false := by
  induction l with
  | nil => intro c h; simp [List.dropWhile] at h
  | cons a t ih =>
      intro c h
      simp only [List.dropWhile] at h
      cases hpa : p a with
      | true => rw [hpa] at h; exact ih c h
      | false =>
          rw [hpa] at h
          simp only [List.head?] at h
          cases h
          exact hpa

/-- `dropWhile` is the identity when the head fails the predicate. -/
theorem dropWhile_eq_self_of_head (p : Char → Bool) (l : List Char)
    (h : ∀ c, l.head? = some c → p c = false) : l.dropWhile p = l := by
  cases l with
  | nil => rfl
  | cons a t => simp [List.dropWhile, h a rfl]

/-- A non-empty prefix shares the head of the whole list. -/
theorem head_of_isPrefix {v y : List Char} (hv : v ≠ []) (hp : v <+: y) :
    y.head? = v.head? := by
  obtain ⟨t, rfl⟩ := hp
  cases v with
  | nil => exact absurd rfl hv
  | cons a u => rfl

/-- `pyStripL` is front-strip followed by Mathlib's back-strip. -/
theorem pyStripL_eq (l : List Char) :
    pyStripL l = List.rdropWhile isPySpace (l.dropWhile isPySpace) := rfl

/-- Stripping is idempotent. -/
theorem pyStripL_idem (l : List Char) : pyStripL (pyStripL l) = pyStripL l := by
  rw [pyStripL_eq, pyStripL_eq]
  have h1 : (List.rdropWhile isPySpace (l.dropWhile isPySpace)).dropWhile isPySpace =
      List.rdropWhile isPySpace (l.dropWhile isPySpace) := by
    apply dropWhile_eq_self_of_head
    intro c hc
    by_cases hne : List.rdropWhile isPySpace (l.dropWhile isPySpace) = []
    · rw [hne] at hc; cases hc
    · have hh := head_of_isPrefix hne (List.rdropWhile_prefix isPySpace (l.dropWhile isPySpace))
      exact head_of_dropWhile_not isPySpace l c (hh.trans hc)
  rw [h1, List.rdropWhile_idempotent]

/-- `pyStripS` on an explicitly built string. -/
theorem pyStripS_mk (l : List Char) : pyStripS ⟨l⟩ = ⟨pyStripL l⟩ := rfl

/-- Stripping on strings is idempotent. -/
theorem pyStripS_idem (s : String) : pyStripS (pyStripS s) = pyStripS s := by
  have h : pyStripS s = ⟨pyStripL s.data⟩ := rfl
  rw [h, pyStripS_mk, pyStripL_idem]

/-- The sanitizer's output is already stripped. -/
theorem sanitizeBanned_stripped (t : String) :
    pyStripS (sanitizeBanned t) = sanitizeBanned t := by
  have h : sanitizeBanned t =
      ⟨pyStripL (collapseWS (BANNED_PHRASES.foldl (fun acc p => removeAllCI p.data acc) t.data))⟩ :=
    rfl
  rw [h, pyStripS_mk, pyStripL_idem]

/-- A conditional between a success and an error returns a success only from
its success branch. -/
theorem ok_of_ite_ok {b : Bool} {d0 d : Draft} {e : String}
    (h : (if b = true then Except.ok d0 else Except.error e) =
      (Except.ok d : Except String Draft)) : d = d0 := by
  cases b
  · rw [if_neg (by simp)] at h
    cases h
  · rw [if_pos rfl] at h
    cases h
    rfl

/-- Any draft produced by one successful attempt has an already-stripped
subject and body (they are sanitizer outputs). -/
theorem attemptOutcome_ok_stripped (p : ResumeProfile) (jd : JobDescriptor)
    (completions : Nat → Except String String) (i : Nat) (d : Draft)
    (h : attemptOutcome p jd completions i = .ok d) :
    pyStripS d.subject = d.subject ∧ pyStripS d.body = d.body := by
  simp only [attemptOutcome] at h
  cases hci : completions i with
  | error e => rw [hci] at h; cases h
  | ok content =>
      rw [hci] at h
      simp only [] at h
      rw [ok_of_ite_ok h]
      exact ⟨sanitizeBanned_stripped _, sanitizeBanned_stripped _⟩

/-- Any draft returned by `generate_email` has an already-stripped subject and
body. -/
theorem generateEmail_ok_stripped (p : ResumeProfile) (jd : JobDescriptor)
    (completions : Nat → Except String String) (d : Draft)
    (h : generateEmail p jd completions = .ok d) :
    pyStripS d.subject = d.subject ∧ pyStripS d.body = d.body := by
  rw [generateEmail_unfold] at h
  cases h0 : attemptOutcome p jd completions 0 with
  | ok d0 =>
      rw [h0] at h
      cases h
      exact attemptOutcome_ok_stripped _ _ _ _ _ h0
  | error r0 =>
      rw [h0] at h
      cases h1 : attemptOutcome p jd completions 1 with
      | ok d1 =>
          rw [h1] at h
          cases h
          exact attemptOutcome_ok_stripped _ _ _ _ _ h1
      | error r1 =>
          rw [h1] at h
          cases h2 : attemptOutcome p jd completions 2 with
          | ok d2 =>
              rw [h2] at h
              cases h
              exact attemptOutcome_ok_stripped _ _ _ _ _ h2
          | error r2 => rw [h2] at h; cases h

/-- C8: post-processing of an accepted draft.  The final subject equals the
model-produced (sanitized) subject when it is non-empty, otherwise the
deterministic fallback `"Application – {role}"` / `"Application – This Role"`;
the final body is the draft body with `"\n\nThanks,\n{name}"` appended exactly
when the trimmed resume name is non-blank, and unchanged otherwise. -/
theorem composer_postprocessing (p : ResumeProfile) (jdData : JobDescriptor)
    (recipientEmail : Option String) (senderEmail : String)
    (completions : Nat → Except String String) (gen : Draft)
    (hgen : generateEmail p (normalizeJd jdData) completions = .ok gen)
    (hto : pyStripS (pyOrOpt recipientEmail (normalizeJd jdData).email) ≠ "") :
    ∃ msg, composeFullEmail p jdData recipientEmail senderEmail completions = .ok msg
      ∧ msg.toAddr = pyStripS (pyOrOpt recipientEmail (normalizeJd jdData).email)
      ∧ msg.fromAddr = senderEmail
      ∧ (gen.subject ≠ "" → msg.subject = gen.subject)
      ∧ (gen.subject = "" →
          msg.subject = if pyStripS jdData.role ≠ "" then "Application – " ++ pyStripS jdData.role
                        else "Application – This Role")
      ∧ (pyStripS p.name ≠ "" → msg.body = gen.body ++ "\n\nThanks,\n" ++ pyStripS p.name)
      ∧ (pyStripS p.name = "" → msg.body = gen.body) := by
  obtain ⟨hsub, hbody⟩ := generateEmail_ok_stripped _ _ _ _ hgen
  simp only [composeFullEmail]
  rw [if_neg hto, hgen]
  refine ⟨_, rfl, rfl, rfl, ?_, ?_, ?_, ?_⟩
  · intro hne
    show (if pyStripS gen.subject = "" then _ else pyStripS gen.subject) = gen.subject
    rw [hsub, if_neg hne]
  · intro hempty
    show (if pyStripS gen.subject = "" then _ else pyStripS gen.subject) = _
    rw [hsub, if_pos hempty]
    show (if pyStripS ((normalizeJd jdData).role) ≠ "" then
        "Application – " ++ pyStripS ((normalizeJd jdData).role) else _) = _
    simp only [normalizeJd]
    rw [pyStripS_idem]
  · intro hname
    show (if pyStripS p.name ≠ "" then pyStripS gen.body ++ _ ++ pyStripS p.name
        else pyStripS gen.body) = _
    rw [hbody, if_pos hname]
  · intro hname
    show (if pyStripS p.name ≠ "" then pyStripS gen.body ++ _ ++ pyStripS p.name
        else pyStripS gen.body) = _
    rw [hbody, if_neg (by simp [hname])]

/-- Witness for C8 on a concrete end-to-end run: the accepted draft keeps its
model-produced subject, and the body gains the two-line signature. -/
theorem composer_postprocessing_witness :
    ∃ msg, composeFullEmail profileA jdA none "jobs@sender.dev" (fun _ => .ok rawA) = .ok msg
      ∧ msg.subject = "Application – SWE"
      ∧ msg.body = sanBodyA ++ "\n\nThanks,\n" ++ "Asha Rao"
      ∧ msg.toAddr = "hr@acme.com" := by
  have hnorm : normalizeJd jdA = jdA := by decide
  have h0 : attemptOutcome profileA (normalizeJd jdA) (fun _ => .ok rawA) 0 = .ok draftA := by
    rw [hnorm]
    simp only [attemptOutcome]
    rw [show pyStripS rawA = rawA from by decide,
      show sanitizeBanned (parseGeneratedEmail rawA).1 = "Application – SWE" from by decide,
      show sanitizeBanned (parseGeneratedEmail rawA).2.1 = sanBodyA from by decide,
      show validateEmailOutput "Application – SWE" sanBodyA "" profileA jdA = (true, "")
        from by decide]
    rfl
  have hgen : generateEmail profileA (normalizeJd jdA) (fun _ => .ok rawA) = .ok draftA := by
    rw [generateEmail_unfold, h0]
  obtain ⟨msg, hok, htoA, _hfrom, hsubNe, _hsubEmpty, hbodyName, _hbodyNone⟩ :=
    composer_postprocessing profileA jdA none "jobs@sender.dev" (fun _ => .ok rawA) draftA
      hgen (by decide)
  refine ⟨msg, hok, ?_, ?_, ?_⟩
  · rw [hsubNe (by decide)]
    rfl
  · rw [hbodyName (by decide)]
    rfl
  · rw [htoA]
    decide

/-! ## C6: the context builder's highlight section -/

/-- The highlight-collection loop keeps order: starting from any accumulator
holding at most 2 entries, it extends it with the stripped non-blank blocks
and caps the result at 2. -/
theorem addHighlights_eq (blocks : List String) (acc : List String)
    (hacc : acc.length ≤ 2) :
    addHighlights blocks acc =
      (acc ++ (blocks.map pyStripS).filter (fun s => s ≠ "")).take 2 := by
  induction blocks generalizing acc with
  | nil =>
      simp only [addHighlights, List.map_nil, List.filter_nil, List.append_nil]
      exact (List.take_of_length_le hacc).symm
  | cons b rest ih =>
      simp only [addHighlights]
      by_cases hfull : acc.length ≥ 2
      · rw [if_pos hfull]
        have hacc2 : acc.length = 2 := le_antisymm hacc hfull
        rw [List.take_append_eq_append_take, hacc2]
        simp [List.take_of_length_le (le_of_eq hacc2)]
      · rw [if_neg hfull]
        by_cases hb : pyStripS b ≠ ""
        · rw [if_pos hb]
          rw [ih (acc ++ [pyStripS b]) (by simp; omega)]
          simp only [List.map_cons, List.filter_cons]
          rw [if_pos (by simpa using hb)]
          simp [List.append_assoc]
        · rw [if_neg hb]
          rw [ih acc hacc]
          simp only [List.map_cons, List.filter_cons]
          rw [if_neg (by simpa using hb)]

/-- C6: the highlight list equals the first two non-blank (stripped) entries
of experience-then-projects, in source order; the single blank placeholder
line `"- "` appears exactly when there are no highlights; otherwise the
section is precisely the bullet lines of the highlights; and for a resume
with no experience and exactly two non-blank projects the section is exactly
those two project lines. -/
theorem context_builder_highlights (p : ResumeProfile) :
    highlightsOf p =
      ((p.experience.map pyStripS).filter (fun s => s ≠ "") ++
       (p.projects.map pyStripS).filter (fun s => s ≠ "")).take 2
    ∧ (highlightsSection p = "- " ↔ highlightsOf p = [])
    ∧ (highlightsOf p ≠ [] →
        highlightsSection p = pyJoin "\n" ((highlightsOf p).map (fun line => "- " ++ line)))
    ∧ (p.experience = [] → ∀ s1 s2, p.projects = [s1, s2] →
        pyStripS s1 ≠ "" → pyStripS s2 ≠ "" →
        highlightsSection p = "- " ++ pyStripS s1 ++ "\n" ++ ("- " ++ pyStripS s2)) := by
  have fexp := (p.experience.map pyStripS).filter (fun s => s ≠ "")
  have hchar : highlightsOf p =
      ((p.experience.map pyStripS).filter (fun s => s ≠ "") ++
       (p.projects.map pyStripS).filter (fun s => s ≠ "")).take 2 := by
    simp only [highlightsOf]
    rw [addHighlights_eq p.experience [] (by simp)]
    simp only [List.nil_append]
    by_cases hlt : (((p.experience.map pyStripS).filter (fun s => s ≠ "")).take 2).length < 2
    · rw [if_pos hlt]
      have hlen : ((p.experience.map pyStripS).filter (fun s => s ≠ "")).length < 2 := by
        rw [List.length_take] at hlt
        omega
      rw [List.take_of_length_le (le_of_lt hlen)] at hlt ⊢
      rw [addHighlights_eq p.projects _ (le_of_lt hlt)]
      rw [List.take_take]
      norm_num
    · rw [if_neg hlt]
      rw [List.length_take] at hlt
      have hge : ((p.experience.map pyStripS).filter (fun s => s ≠ "")).length ≥ 2 := by omega
      rw [List.take_take, List.take_append_eq_append_take]
      have : 2 - ((p.experience.map pyStripS).filter (fun s => s ≠ "")).length = 0 := by omega
      rw [this]
      simp
  have hnonblank : ∀ s ∈ highlightsOf p, s ≠ "" := by
    intro s hs
    rw [hchar] at hs
    have hs2 := List.take_subset 2 _ hs
    rcases List.mem_append.mp hs2 with h | h
    · simpa using (List.mem_filter.mp h).2
    · simpa using (List.mem_filter.mp h).2
  have hsec_nonempty : highlightsOf p ≠ [] →
      highlightsSection p = pyJoin "\n" ((highlightsOf p).map (fun line => "- " ++ line)) := by
    intro hne
    simp only [highlightsSection]
    rw [if_neg hne]
    congr 1
    apply List.map_congr_left
    intro a ha
    rw [if_pos (hnonblank a ha)]
  refine ⟨hchar, ?_, hsec_nonempty, ?_⟩
  · constructor
    · intro hsec
      by_contra hne
      rw [hsec_nonempty hne] at hsec
      match hhl : highlightsOf p, hne with
      | x :: t, _ =>
          rw [hhl] at hsec
          have hx : x ≠ "" := hnonblank x (by rw [hhl]; exact List.mem_cons_self x t)
          have hxlen : 0 < x.length := by
            cases x with
            | mk xd =>
                cases xd with
                | nil => exact absurd rfl hx
                | cons c cs =>
                    show 0 < (String.mk (c :: cs)).length
                    simp [String.length]
          cases t with
          | nil =>
              have := congrArg String.length hsec
              simp only [pyJoin, List.map_cons, List.map_nil, String.length_append] at this
              have h2 : ("- " : String).length = 2 := by decide
              rw [h2] at this
              have h3 : ("- " : String).length = 2 := by decide
              omega
          | cons y t' =>
              have := congrArg String.length hsec
              simp only [pyJoin, List.map_cons, String.length_append] at this
              have h2 : ("- " : String).length = 2 := by decide
              have h3 : ("\n" : String).length = 1 := by decide
              rw [h2, h3] at this
              omega
    · intro hempty
      simp only [highlightsSection]
      rw [if_pos hempty]
      decide
  · intro hexp s1 s2 hproj h1 h2
    have hhl : highlightsOf p = [pyStripS s1, pyStripS s2] := by
      rw [hchar, hexp, hproj]
      simp [h1, h2]
    rw [hsec_nonempty (by rw [hhl]; simp), hhl]
    rfl

/-- Witness for C6 at a concrete profile with no experience and two non-blank
projects. -/
theorem context_builder_highlights_witness :
    highlightsSection ⟨"", "", "", [], [], ["Project one", "Project two"], ""⟩ =
      "- " ++ pyStripS "Project one" ++ "\n" ++ ("- " ++ pyStripS "Project two") :=
  (context_builder_highlights ⟨"", "", "", [], [], ["Project one", "Project two"], ""⟩).2.2.2
    rfl "Project one" "Project two" rfl (by decide) (by decide)

/-! ## C9: the sanitizer's output is a single line -/

/-- Every character emitted by the whitespace-collapsing scan is either a
non-whitespace input character or the single space `' '`. -/
theorem mem_collapseGo_ws (l : List Char) :
    ∀ (flag : Bool) (c : Char), c ∈ collapseGo flag l → isPySpace c = true → c = ' ' := by
  induction l with
  | nil => intro flag c hc _; simp [collapseGo] at hc
  | cons a rest ih =>
      intro flag c hc hws
      simp only [collapseGo] at hc
      by_cases ha : isPySpace a
      · rw [if_pos ha] at hc
        cases flag with
        | false =>
            rw [if_neg (by simp)] at hc
            rcases List.mem_cons.mp hc with h | h
            · exact h
            · exact ih true c h hws
        | true =>
            rw [if_pos rfl] at hc
            exact ih true c hc hws
      · rw [if_neg ha] at hc
        rcases List.mem_cons.mp hc with h | h
        · subst h; exact absurd hws (by simpa using ha)
        · exact ih false c h hws

/-- After a space was just emitted, the next emitted character (if any) is not
whitespace. -/
theorem collapseGo_true_head (l : List Char) :
    ∀ c, (collapseGo true l).head? = some c → isPySpace c = false := by
  induction l with
  | nil => intro c h; simp [collapseGo] at h
  | cons a rest ih =>
      intro c h
      simp only [collapseGo] at h
      by_cases ha : isPySpace a
      · rw [if_pos ha, if_pos trivial] at h
        exact ih c h
      · rw [if_neg ha] at h
        simp only [List.head?] at h
        cases h
        simpa using ha

/-- Unfolding `noDoubleWS` at a cons cell. -/
theorem noDoubleWS_cons (a : Char) (l : List Char) :
    noDoubleWS (a :: l) =
      ((match l.head? with
        | none => true
        | some b => !(isPySpace a && isPySpace b)) && noDoubleWS l) := by
  cases l <;> simp [noDoubleWS]

/-- The collapsing scan never emits two adjacent whitespace characters. -/
theorem collapseGo_noDouble (l : List Char) :
    ∀ flag, noDoubleWS (collapseGo flag l) = true := by
  induction l with
  | nil => intro flag; rfl
  | cons a rest ih =>
      intro flag
      simp only [collapseGo]
      by_cases ha : isPySpace a
      · rw [if_pos ha]
        cases flag with
        | true => rw [if_pos rfl]; exact ih true
        | false =>
            rw [if_neg (by simp), noDoubleWS_cons]
            cases hh : (collapseGo true rest).head? with
            | none => simp [ih true]
            | some b =>
                have hb := collapseGo_true_head rest b hh
                simp [hb, ih true]
      · rw [if_neg ha, noDoubleWS_cons]
        cases hh : (collapseGo false rest).head? with
        | none => simp [ih false]
        | some b => simp [ha, ih false]

/-- A prefix of a double-whitespace-free list is double-whitespace-free. -/
theorem noDoubleWS_append_left (l t : List Char) (h : noDoubleWS (l ++ t) = true) :
    noDoubleWS l = true := by
  induction l with
  | nil => rfl
  | cons a l' ih =>
      rw [List.cons_append, noDoubleWS_cons] at h
      obtain ⟨h1, h2⟩ := Bool.and_eq_true_iff.mp h
      rw [noDoubleWS_cons]
      cases l' with
      | nil => simp [noDoubleWS]
      | cons x l'' =>
          rw [List.cons_append] at h1 h2
          simp only [List.head?] at h1 ⊢
          exact Bool.and_eq_true_iff.mpr ⟨h1, ih h2⟩

/-- A suffix of a double-whitespace-free list is double-whitespace-free. -/
theorem noDoubleWS_append_right (t l : List Char) (h : noDoubleWS (t ++ l) = true) :
    noDoubleWS l = true := by
  induction t with
  | nil => exact h
  | cons a t' ih =>
      rw [List.cons_append, noDoubleWS_cons] at h
      exact ih (Bool.and_eq_true_iff.mp h).2

/-- Stripping preserves double-whitespace-freedom. -/
theorem pyStripL_noDouble (l : List Char) (h : noDoubleWS l = true) :
    noDoubleWS (pyStripL l) = true := by
  have h1 : noDoubleWS (l.dropWhile isPySpace) = true := by
    obtain ⟨t, ht⟩ := List.dropWhile_suffix (p := isPySpace) (l := l)
    exact noDoubleWS_append_right t _ (by rw [ht]; exact h)
  obtain ⟨t2, ht2⟩ := List.rdropWhile_prefix isPySpace (l.dropWhile isPySpace)
  rw [pyStripL_eq]
  exact noDoubleWS_append_left _ t2 (by rw [ht2]; exact h1)

/-- Every character of the stripped list occurs in the original list. -/
theorem mem_of_mem_pyStripL (l : List Char) (c : Char) (hc : c ∈ pyStripL l) : c ∈ l := by
  rw [pyStripL_eq] at hc
  have h1 : c ∈ l.dropWhile isPySpace :=
    (List.rdropWhile_prefix isPySpace (l.dropWhile isPySpace)).subset hc
  exact (List.dropWhile_suffix (p := isPySpace) (l := l)).subset h1

/-- Splitting on newlines is trivial when there are none. -/
theorem splitOnNl_of_no_newline (l : List Char) (h : '\n' ∉ l) : splitOnNl l = [l] := by
  induction l with
  | nil => rfl
  | cons c rest ih =>
      have hc : c ≠ '\n' := fun hcn => h (by rw [hcn]; exact List.mem_cons_self _ _)
      have hrest : '\n' ∉ rest := fun hr => h (List.mem_cons_of_mem _ hr)
      simp only [splitOnNl, ih hrest]
      rw [if_neg hc]

/-- A string with empty character data is the empty string. -/
theorem string_eq_empty_of_data (s : String) (h : s.data = []) : s = "" := by
  cases s
  cases h
  rfl

/-- Splitting a newline-free string into lines yields the string itself (or
nothing, for the empty string). -/
theorem pySplitLines_no_newline (s : String) (h : '\n' ∉ s.data) :
    pySplitLines s = (if s = "" then [] else [s]) := by
  cases s with
  | mk d =>
      cases d with
      | nil => rfl
      | cons c rest =>
          have h' : '\n' ∉ (c :: rest) := h
          have hsplit := splitOnNl_of_no_newline (c :: rest) h'
          have hne : (String.mk (c :: rest)) ≠ "" := by
            intro he
            cases congrArg String.data he
          rw [if_neg hne]
          show (match (c :: rest : List Char) with
            | [] => ([] : List String)
            | l =>
                let parts := splitOnNl l
                if parts.getLast? = some [] then (parts.dropLast).map String.mk
                else parts.map String.mk) = [⟨c :: rest⟩]
          simp only [hsplit]
          rw [if_neg (by simp)]
          rfl

/-- C9: for every input, the sanitized text (i) has only `' '` as whitespace,
(ii) contains no newline, (iii) has no two adjacent whitespace characters,
(iv) forms a single line for the line-splitting used by the bullet rule, and
(v) triggers the bullet rule exactly when its very first character is a
bullet marker (after the lowercasing the rule applies). -/
theorem sanitizer_single_line_output (T : String) :
    (∀ c ∈ (sanitizeBanned T).data, isPySpace c = true → c = ' ')
    ∧ '\n' ∉ (sanitizeBanned T).data
    ∧ noDoubleWS (sanitizeBanned T).data = true
    ∧ pySplitLines (sanitizeBanned T) =
        (if sanitizeBanned T = "" then [] else [sanitizeBanned T])
    ∧ (containsBullets (sanitizeBanned T) = true ↔
        ∃ c, (sanitizeBanned T).data.head? = some c ∧
          (lowerChar c = '-' ∨ lowerChar c = '*' ∨ lowerChar c = '•')) := by
  have hmk : sanitizeBanned T =
      ⟨pyStripL (collapseWS (BANNED_PHRASES.foldl (fun acc p => removeAllCI p.data acc) T.data))⟩ :=
    rfl
  have hdata : (sanitizeBanned T).data =
      pyStripL (collapseWS (BANNED_PHRASES.foldl (fun acc p => removeAllCI p.data acc) T.data)) := by
    rw [hmk]
  have hws : ∀ c ∈ (sanitizeBanned T).data, isPySpace c = true → c = ' ' := by
    intro c hc hcs
    rw [hdata] at hc
    exact mem_collapseGo_ws _ false c (mem_of_mem_pyStripL _ c hc) hcs
  have hnl : '\n' ∉ (sanitizeBanned T).data := by
    intro hmem
    exact absurd (hws '\n' hmem (by decide)) (by decide)
  have hnd : noDoubleWS (sanitizeBanned T).data = true := by
    rw [hdata]
    exact pyStripL_noDouble _ (collapseGo_noDouble _ false)
  have hstrip : pyStripS (sanitizeBanned T) = sanitizeBanned T := sanitizeBanned_stripped T
  have hlines := pySplitLines_no_newline (sanitizeBanned T) hnl
  refine ⟨hws, hnl, hnd, hlines, ?_⟩
  by_cases hS : sanitizeBanned T = ""
  · rw [if_pos hS] at hlines
    simp only [containsBullets, hlines, List.any_nil]
    constructor
    · intro hfalse; cases hfalse
    · rintro ⟨c, hc, -⟩
      rw [hS] at hc
      cases hc
  · rw [if_neg hS] at hlines
    simp only [containsBullets, hlines, List.any_cons, List.any_nil, Bool.or_false]
    rw [hstrip]
    have hmapmk : toLowerS (sanitizeBanned T) = ⟨List.map lowerChar (sanitizeBanned T).data⟩ :=
      rfl
    have hmap : (toLowerS (sanitizeBanned T)).data =
        List.map lowerChar (sanitizeBanned T).data := by
      rw [hmapmk]
    cases hd : (sanitizeBanned T).data with
    | nil => exact absurd (string_eq_empty_of_data _ hd) hS
    | cons c rest =>
        rw [hmap, hd]
        simp only [List.map_cons, List.head?]
        constructor
        · intro hbool
          refine ⟨c, rfl, ?_⟩
          rcases Bool.or_eq_true_iff.mp hbool with h2 | h3
          · rcases Bool.or_eq_true_iff.mp h2 with h4 | h5
            · exact Or.inl (of_decide_eq_true h4)
            · exact Or.inr (Or.inl (of_decide_eq_true h5))
          · exact Or.inr (Or.inr (of_decide_eq_true h3))
        · rintro ⟨c', hc', hdisj⟩
          cases hc'
          rcases hdisj with h | h | h
          · exact Bool.or_eq_true_iff.mpr (Or.inl (Bool.or_eq_true_iff.mpr
              (Or.inl (decide_eq_true h))))
          · exact Bool.or_eq_true_iff.mpr (Or.inl (Bool.or_eq_true_iff.mpr
              (Or.inr (decide_eq_true h))))
          · exact Bool.or_eq_true_iff.mpr (Or.inr (decide_eq_true h))

/-- Witness for C9 at a concrete multi-line, multi-space input. -/
theorem sanitizer_single_line_output_witness :
    '\n' ∉ (sanitizeBanned "a\nb  c").data ∧
    noDoubleWS (sanitizeBanned "a\nb  c").data = true :=
  ⟨(sanitizer_single_line_output "a\nb  c").2.1,
   (sanitizer_single_line_output "a\nb  c").2.2.1⟩

/-! ## C1: the sanitizer and banned-phrase occurrences -/

/-- The case-insensitive prefix match agrees with a plain prefix match of the
lowercased lists. -/
theorem isPrefixCI_eq (p : List Char) :
    ∀ l, isPrefixCI p l = (toLowerL p).isPrefixOf (toLowerL l) := by
  induction p with
  | nil => intro l; simp [isPrefixCI, toLowerL]
  | cons a as ih =>
      intro l
      cases l with
      | nil => simp [isPrefixCI, toLowerL]
      | cons b bs =>
          show ((lowerChar a == lowerChar b) && isPrefixCI as bs) =
            (toLowerL (a :: as)).isPrefixOf (toLowerL (b :: bs))
          rw [show toLowerL (a :: as) = lowerChar a :: toLowerL as from rfl,
            show toLowerL (b :: bs) = lowerChar b :: toLowerL bs from rfl,
            List.isPrefixOf_cons₂, ih bs]

/-- A prefix match extends along an appended tail. -/
theorem isPrefixOf_append_right (n : List Char) :
    ∀ l t, n.isPrefixOf l = true → n.isPrefixOf (l ++ t) = true := by
  induction n with
  | nil => intro l t _; simp
  | cons a as ih =>
      intro l t h
      cases l with
      | nil => simp at h
      | cons b bs =>
          rw [List.isPrefixOf_cons₂] at h
          obtain ⟨h1, h2⟩ := Bool.and_eq_true_iff.mp h
          rw [List.cons_append, List.isPrefixOf_cons₂]
          exact Bool.and_eq_true_iff.mpr ⟨h1, ih bs t h2⟩

/-- A prefix match yields a substring hit. -/
theorem containsSub_of_isPrefixOf (n l : List Char) (h : n.isPrefixOf l = true) :
    containsSub n l = true := by
  cases l with
  | nil =>
      cases n with
      | nil => rfl
      | cons a as => simp at h
  | cons c rest =>
      simp only [containsSub]
      exact Bool.or_eq_true_iff.mpr (Or.inl h)

/-- A substring hit survives prepending. -/
theorem containsSub_cons (n : List Char) (a : Char) (l : List Char)
    (h : containsSub n l = true) : containsSub n (a :: l) = true := by
  simp only [containsSub]
  exact Bool.or_eq_true_iff.mpr (Or.inr h)

/-- A substring hit survives an appended tail. -/
theorem containsSub_append_right (n : List Char) :
    ∀ l t, containsSub n l = true → containsSub n (l ++ t) = true := by
  intro l
  induction l with
  | nil =>
      intro t h
      simp only [containsSub] at h
      cases n with
      | nil =>
          cases t with
          | nil => rfl
          | cons x r => simp [containsSub]
      | cons a as => simp at h
  | cons c rest ih =>
      intro t h
      simp only [containsSub] at h
      rcases Bool.or_eq_true_iff.mp h with h1 | h2
      · rw [List.cons_append]
        simp only [containsSub]
        exact Bool.or_eq_true_iff.mpr (Or.inl (isPrefixOf_append_right n _ t h1))
      · rw [List.cons_append]
        exact containsSub_cons n c _ (ih t h2)

/-- A substring hit survives a prepended head list. -/
theorem containsSub_append_left (n t l : List Char) (h : containsSub n l = true) :
    containsSub n (t ++ l) = true := by
  induction t with
  | nil => exact h
  | cons a t' ih => exact containsSub_cons n a _ ih

/-- A banned-phrase-free text is untouched by one removal pass. -/
theorem removeGo_id (p : List Char) :
    ∀ (fuel : Nat) (l : List Char),
      containsSub (toLowerL p) (toLowerL l) = false → removeGo p fuel l = l := by
  intro fuel
  induction fuel with
  | zero => intro l _; rfl
  | succ fuel ih =>
      intro l h
      cases l with
      | nil => rfl
      | cons c rest =>
          have hpre : isPrefixCI p (c :: rest) = false := by
            cases hpi : isPrefixCI p (c :: rest) with
            | false => rfl
            | true =>
                exfalso
                rw [isPrefixCI_eq] at hpi
                have hcs := containsSub_of_isPrefixOf _ _ hpi
                rw [h] at hcs
                exact Bool.noConfusion hcs
          simp only [removeGo]
          rw [if_neg (by simp [hpre])]
          congr 1
          apply ih
          cases hc : containsSub (toLowerL p) (toLowerL rest) with
          | false => rfl
          | true =>
              have := containsSub_cons (toLowerL p) (lowerChar c) _ hc
              rw [show (lowerChar c :: toLowerL rest) = toLowerL (c :: rest) from rfl, h] at this
              cases this

/-- The whole removal pipeline is the identity on banned-phrase-free text. -/
theorem foldl_remove_id (ps : List String) :
    ∀ l, (∀ q ∈ ps, containsSub (toLowerL q.data) (toLowerL l) = false) →
      ps.foldl (fun acc p => removeAllCI p.data acc) l = l := by
  induction ps with
  | nil => intro l _; rfl
  | cons p ps' ih =>
      intro l h
      have hp : removeAllCI p.data l = l :=
        removeGo_id p.data l.length l (h p (List.mem_cons_self _ _))
      simp only [List.foldl_cons, hp]
      exact ih l (fun q hq => h q (List.mem_cons_of_mem _ hq))

/-- Lowercasing distributes over append. -/
theorem toLowerL_append (a b : List Char) : toLowerL (a ++ b) = toLowerL a ++ toLowerL b :=
  List.map_append _ _ _

/-- Counterexample to C1 as stated: removing the banned phrase "thrilled" from
`"thrthrilledilled"` splices the surrounding fragments into a fresh
occurrence of "thrilled", which survives to the sanitizer's output. -/
theorem sanitizer_reconstructed_phrase_counterexample :
    "thrilled" ∈ BANNED_PHRASES ∧
    sanitizeBanned "thrthrilledilled" = "thrilled" ∧
    containsSubS "thrilled" (toLowerS (sanitizeBanned "thrthrilledilled")) = true :=
  ⟨by decide, by decide, by decide⟩

/-- C1 as amended: when no banned phrase occurs case-insensitively in the
input — nor in the input with its whitespace runs collapsed, so that the
final whitespace collapse cannot create one — the Sanitizer's output contains
no case-insensitive occurrence of any banned phrase (each removal pass is the
identity, and trimming only shortens the text).  In general a removal may
splice the surrounding fragments into a new occurrence, which survives. -/
theorem sanitizer_clean_input_no_banned (T : String)
    (hraw : ∀ q ∈ BANNED_PHRASES, containsSub q.data (toLowerL T.data) = false)
    (hcollapse : ∀ q ∈ BANNED_PHRASES, containsSub q.data (toLowerL (collapseWS T.data)) = false) :
    ∀ P ∈ BANNED_PHRASES, containsSub P.data (toLowerL (sanitizeBanned T).data) = false := by
  intro P hP
  have hlowerPhrases : ∀ q ∈ BANNED_PHRASES, toLowerL q.data = q.data := by decide
  have hfold : BANNED_PHRASES.foldl (fun acc p => removeAllCI p.data acc) T.data = T.data := by
    apply foldl_remove_id
    intro q hq
    rw [hlowerPhrases q hq]
    exact hraw q hq
  have hmk : sanitizeBanned T =
      ⟨pyStripL (collapseWS (BANNED_PHRASES.foldl (fun acc p => removeAllCI p.data acc) T.data))⟩ :=
    rfl
  have hdata : (sanitizeBanned T).data =
      pyStripL (collapseWS (BANNED_PHRASES.foldl (fun acc p => removeAllCI p.data acc) T.data)) := by
    rw [hmk]
  rw [hdata, hfold]
  obtain ⟨t1, ht1⟩ := List.dropWhile_suffix (p := isPySpace) (l := collapseWS T.data)
  obtain ⟨t2, ht2⟩ := List.rdropWhile_prefix isPySpace ((collapseWS T.data).dropWhile isPySpace)
  cases hc : containsSub P.data (toLowerL (pyStripL (collapseWS T.data))) with
  | false => rfl
  | true =>
      exfalso
      have h1 : containsSub P.data
          (toLowerL (pyStripL (collapseWS T.data)) ++ toLowerL t2) = true :=
        containsSub_append_right _ _ _ hc
      rw [pyStripL_eq, ← toLowerL_append, ht2] at h1
      have h2 : containsSub P.data
          (toLowerL t1 ++ toLowerL ((collapseWS T.data).dropWhile isPySpace)) = true :=
        containsSub_append_left _ _ _ h1
      rw [← toLowerL_append, ht1] at h2
      rw [hcollapse P hP] at h2
      exact Bool.noConfusion h2

/-- Witness for C1 (amended) at a concrete phrase-free input. -/
theorem sanitizer_clean_input_no_banned_witness :
    containsSub ("thrilled" : String).data
      (toLowerL (sanitizeBanned "We build small tools,\n and we like it.").data) = false :=
  sanitizer_clean_input_no_banned "We build small tools,\n and we like it."
    (by decide) (by decide) "thrilled" (by decide)

end JobApplyAgent
